import Mathlib

/-!
Verification of the Scene Playback and Recording Engine of the Lumina video
generator (GeminiVideoGen).  The definitions below are a shallow embedding of

  * src/utils/audioUtils.ts    — PCM decoding and the gain-automation API,
  * src/components/Player.tsx  — the playback sequencer, the gapless preload
    cache, the narration signal path and the export (capture) pipeline,
  * src/unnamed/part_001       — the earlier Player revision that owns the
    background-music bed (lofi drone) and the auto-ducking envelope.

Asynchronous JavaScript is modelled as an atomic small-step semantics: every
user interaction and every asynchronous completion (a source firing ended, a
setTimeout firing) is one step of an operation list, and the React effect
bodies that a state update triggers are folded into the step that performs
the update.  `await decodeAudioData` suspends only for an already-resolved
promise, so no user event can interleave inside one `playSceneAudio` run and
the atomic step model is faithful.  The audio side effects of a run are
recorded in an event trace (`AEv`, `GainEvent`); provenance fields on the
trace (`bufSrc`, `fromCache`) are ghost bookkeeping used only by statements.
-/

namespace Lumina

/-- Ken Burns motion directive of a scene (`effect` field, types.ts /
geminiService `getRandomEffect`). -/
inductive Effect
  | zoomIn
  | zoomOut
  | panLeft
  | panRight
  deriving DecidableEq, Repr

/-- Scene record (types.ts), narrowed to the fields the playback engine
reads.  `audioData` holds the base64-decoded narration bytes (`none` while
the narration is absent); `imageUrl` is `none` while the image is pending. -/
structure Scene where
  id : Nat
  text : String
  audioData : Option (List (Fin 256))
  imageUrl : Option String
  effect : Effect
  deriving DecidableEq, Repr

/-! ## audioUtils.ts — PCM decoding -/

/-- Reinterpret two bytes as one little-endian signed 16-bit sample, as the
`Int16Array` view in `decodeAudioData` (audioUtils.ts 23) does. -/
def toInt16 (lo hi : Fin 256) : Int :=
  if lo.val + 256 * hi.val < 32768 then (lo.val + 256 * hi.val : Nat)
  else (lo.val + 256 * hi.val : Nat) - 65536

/-- The sequence of 16-bit samples an `Int16Array(data.buffer)` view exposes
over a byte array (pairs of bytes, little-endian; a trailing odd byte cannot
occur because the constructor throws on odd lengths). -/
def bytesToInt16 : List (Fin 256) → List Int
  | lo :: hi :: rest => toInt16 lo hi :: bytesToInt16 rest
  | _ => []

/-- Decoded PCM buffer (the Web Audio `AudioBuffer` produced by
`ctx.createBuffer` and filled by `decodeAudioData`). -/
structure AudioBuffer where
  numberOfChannels : Nat
  frameCount : Nat
  channelData : List (List ℚ)
  deriving DecidableEq, Repr

/-- audioUtils.ts 17-34, `decodeAudioData`: view the bytes as interleaved
signed 16-bit samples, split them into `numChannels` channels of
`frameCount = samples / numChannels` frames, and scale each sample by
1/32768.  `none` models the `RangeError` the `Int16Array` constructor throws
on a byte array of odd length (the only failure point of the function). -/
def decodeAudioData (data : List (Fin 256)) (numChannels : Nat) : Option AudioBuffer :=
  if data.length % 2 = 0 then
    let dataInt16 := bytesToInt16 data
    let frameCount := dataInt16.length / numChannels
    some { numberOfChannels := numChannels
           frameCount := frameCount
           channelData := (List.range numChannels).map (fun c =>
             (List.range frameCount).map (fun i =>
               ((dataInt16.getD (i * numChannels + c) 0 : Int) : ℚ) / 32768)) }
  else none

/-- Whether decoding a scene's narration bytes succeeds (the Player always
decodes with the default single channel). -/
def decodeOk (bytes : List (Fin 256)) : Bool := bytes.length % 2 == 0

/-! ## Visual Transform Engine -/

/-- Output of the Ken Burns transform: canvas scale and horizontal shift. -/
structure Transform where
  scale : ℚ
  translateX : ℚ
  deriving DecidableEq, Repr

/-- Player.tsx 270-289 (the `switch (scene.effect)` inside
`startCanvasAnimation`): the piecewise-linear pan/zoom map from a motion
directive and progress to the drawing transform. -/
def computeTransform : Effect → ℚ → Transform
  | .zoomIn, progress => { scale := 1 + 15 / 100 * progress, translateX := 0 }
  | .zoomOut, progress => { scale := 115 / 100 - 15 / 100 * progress, translateX := 0 }
  | .panLeft, progress => { scale := 11 / 10, translateX := 0 - 30 * progress }
  | .panRight, progress => { scale := 11 / 10, translateX := 0 + 30 * progress }

/-- One drawing command of the offline canvas renderer. -/
inductive DrawCmd
  | clear
  | image (url : String) (scale translateX : ℚ)
  | grain
  | text (t : String)
  deriving DecidableEq, Repr

/-- Player.tsx 262-264: progress of a scene at audio-clock time `now`,
clamped to 1. -/
def progressAt (startTime duration now : ℚ) : ℚ :=
  min ((now - startTime) / duration) 1

/-- One pass of the `render` closure (Player.tsx 259-318): clear to the
background colour, draw the image under the Ken Burns transform, overlay
grain, draw the caption text. -/
def renderFrame (scene : Scene) (progress : ℚ) : List DrawCmd :=
  let t := computeTransform scene.effect progress
  match scene.imageUrl with
  | some url => [DrawCmd.clear, DrawCmd.image url t.scale t.translateX, DrawCmd.grain,
      DrawCmd.text scene.text]
  | none => [DrawCmd.clear, DrawCmd.grain, DrawCmd.text scene.text]

/-- Player.tsx 249-330, `startCanvasAnimation`: the frames drawn onto the
hidden export canvas for one scene, sampled at the audio-clock times
`ticks` chosen by `requestAnimationFrame`.  Line 253 returns before
installing the render loop whenever `scene.imageUrl` is absent, so a
pending image produces no frames at all; line 260 aborts every frame once
the recorder is inactive. -/
def startCanvasAnimation (recorderActive : Bool) (scene : Scene)
    (startTime duration : ℚ) (ticks : List ℚ) : List (List DrawCmd) :=
  if scene.imageUrl = none then []
  else if recorderActive = false then []
  else ticks.map (fun now => renderFrame scene (progressAt startTime duration now))

/-! ## Player.tsx — sequencer, preload cache, capture pipeline -/

/-- A started narration source node.  `bufSrc` is ghost provenance: the
index of the scene whose narration payload was decoded into the buffer this
source plays. -/
structure Source where
  sid : Nat
  bufSrc : Nat
  deriving DecidableEq, Repr

/-- MediaRecorder state (only the two states the Player observes). -/
inductive RecState
  | recording
  | inactive
  deriving DecidableEq, Repr

/-- An allocated MediaRecorder session. -/
structure Recorder where
  rid : Nat
  state : RecState
  deriving DecidableEq, Repr

/-- Kind of a pending asynchronous completion: a source `onended` callback
or a `setTimeout` armed with the given delay in milliseconds. -/
inductive HKind
  | onEnded (sid : Nat)
  | fallbackTimer (delayMs : Nat)
  deriving DecidableEq, Repr

/-- A pending asynchronous completion handler.  The `captured*` fields are
the values of `currentSceneIndex` and `isPlaying` in the render closure the
callback was created in — the code consults these captured copies, never
the live state. -/
structure Handler where
  hid : Nat
  kind : HKind
  capturedIndex : Nat
  capturedIsPlaying : Bool
  isExportRun : Bool
  deriving DecidableEq, Repr

/-- Audio trace event: a narration source being stopped or started.
`bufSrc`/`sceneIdx`/`fromCache` on `start` are ghost provenance: the scene
whose payload the played buffer was decoded from, the scene being played,
and whether the buffer came out of the preload cache. -/
inductive AEv
  | stop (sid : Nat)
  | start (sid bufSrc sceneIdx : Nat) (fromCache : Bool)
  deriving DecidableEq, Repr

/-- Combined state of the Player component and the App-level scene state it
drives through `onSceneChange`.  The audio context itself is created once by
the mount effect (Player.tsx 40-48) and `ensureAudioGraph` (51-56) only
resumes it, so it is not represented here; `nextAudioBuffer` holds the ghost
provenance index of the single cached preloaded buffer. -/
structure PState where
  scenes : List Scene
  currentSceneIndex : Nat
  isPlaying : Bool
  isExporting : Bool
  voiceSource : Option Source
  nextAudioBuffer : Option Nat
  recorder : Option Recorder
  handlers : List Handler
  trace : List AEv
  nextSid : Nat
  nextHid : Nat
  nextRid : Nat
  deriving DecidableEq, Repr

/-- Fixed auto-advance delay for a scene with no narration payload
(Player.tsx 83: `setTimeout(..., 3000)`). -/
def fallbackDelayMs : Nat := 3000

/-- Auto-advance delay armed by the `catch` of a narration decode failure
(Player.tsx 151: `setTimeout(..., 2000)`). -/
def errorRetryDelayMs : Nat := 2000

/-- Arm a `setTimeout(() => handleNext(isExportRun), delayMs)` whose
callback closes over the current render's `currentSceneIndex` and
`isPlaying`. -/
def armTimer (s : PState) (delayMs : Nat) (isExportRun : Bool) : PState :=
  { s with
    handlers := s.handlers ++
      [{ hid := s.nextHid
         kind := HKind.fallbackTimer delayMs
         capturedIndex := s.currentSceneIndex
         capturedIsPlaying := s.isPlaying
         isExportRun := isExportRun }]
    nextHid := s.nextHid + 1 }

/-- Player.tsx 89-91: stop the previously registered narration source (the
stop is wrapped in try/catch, so stopping an already-ended source is
harmless); the ref is not cleared here. -/
def stopPrev (s : PState) : PState :=
  match s.voiceSource with
  | some v => { s with trace := s.trace ++ [AEv.stop v.sid] }
  | none => s

/-- Player.tsx 59-76, `preloadNextAudio`: decode the narration of scene
`index + 1` (when it exists and has a payload) into the single cache slot,
overwriting any previous entry; a decode failure is logged and leaves the
cache as it was. -/
def preloadNextAudio (s : PState) (index : Nat) : PState :=
  match s.scenes[index + 1]? with
  | none => s
  | some nextScene =>
    match nextScene.audioData with
    | none => s
    | some bytes => if decodeOk bytes then { s with nextAudioBuffer := some (index + 1) } else s

/-- Player.tsx 111-136: build the source → bass EQ → gain chain, register
the `onended` callback (closing over the current render's index and
`isPlaying`), start the source and store it in the voice-source ref. -/
def startSource (s : PState) (bufSrc : Nat) (fromCache : Bool) (isExportRun : Bool) : PState :=
  { s with
    handlers := s.handlers ++
      [{ hid := s.nextHid
         kind := HKind.onEnded s.nextSid
         capturedIndex := s.currentSceneIndex
         capturedIsPlaying := s.isPlaying
         isExportRun := isExportRun }]
    trace := s.trace ++ [AEv.start s.nextSid bufSrc s.currentSceneIndex fromCache]
    voiceSource := some { sid := s.nextSid, bufSrc := bufSrc }
    nextSid := s.nextSid + 1
    nextHid := s.nextHid + 1 }

/-- Player.tsx 104: consuming the cached buffer clears the cache slot. -/
def clearCache (s : PState) : PState :=
  { s with nextAudioBuffer := none }

/-- Tail of the successful-decode path of `playSceneAudio` (Player.tsx
111-147): start the source, then, in preview mode while playing, preload
the next scene's narration (`startSource` changes neither `isPlaying` nor
the index, so the condition and the argument read the pre-start values the
render closure holds). -/
def finishStart (s : PState) (bufSrc : Nat) (fromCache : Bool) (isExportRun : Bool) : PState :=
  if isExportRun = false ∧ s.isPlaying = true then
    preloadNextAudio (startSource s bufSrc fromCache isExportRun) s.currentSceneIndex
  else startSource s bufSrc fromCache isExportRun

/-- Player.tsx 79-153, `playSceneAudio`, always invoked on the current
scene.  No payload: arm the 3000 ms fallback timer (when playing or
exporting).  Otherwise: stop the previous source, take the cached buffer
unconditionally if one is present (clearing the slot), else decode the
scene's own payload — a decode failure is caught and arms the 2000 ms
retry timer — then start the new source.  The canvas animation started on
the export path is modelled separately by `startCanvasAnimation`. -/
def playSceneAudio (s : PState) (isExportRun : Bool) : PState :=
  match s.scenes[s.currentSceneIndex]? with
  | none => s
  | some scene =>
    match scene.audioData with
    | none =>
      if s.isPlaying = true ∨ isExportRun = true then armTimer s fallbackDelayMs isExportRun
      else s
    | some bytes =>
      match (stopPrev s).nextAudioBuffer with
      | some k => finishStart (clearCache (stopPrev s)) k true isExportRun
      | none =>
        if decodeOk bytes then finishStart (stopPrev s) s.currentSceneIndex false isExportRun
        else if s.isPlaying = true ∨ isExportRun = true then
          armTimer (stopPrev s) errorRetryDelayMs isExportRun
        else stopPrev s

/-- Player.tsx 446-449 (the `else` branch of the playback effect): stop the
registered source and clear the ref. -/
def stopAndClear (s : PState) : PState :=
  match s.voiceSource with
  | some v => { s with trace := s.trace ++ [AEv.stop v.sid], voiceSource := none }
  | none => s

/-- Player.tsx 190-234 (first half of `startExportSequence`): allocate and
start a recorder only when the index is 0 and no recorder exists. -/
def allocRecorder (s : PState) : PState :=
  if s.currentSceneIndex = 0 ∧ s.recorder = none then
    { s with recorder := some { rid := s.nextRid, state := RecState.recording }
             nextRid := s.nextRid + 1 }
  else s

/-- Player.tsx 236-239 (second half of `startExportSequence`): whenever a
recorder exists and is recording, play the current scene in export mode. -/
def exportPlayPhase (s : PState) : PState :=
  match s.recorder with
  | some r => if r.state = RecState.recording then playSceneAudio s true else s
  | none => s

/-- Player.tsx 189-240, `startExportSequence`. -/
def startExportSequence (s : PState) : PState :=
  exportPlayPhase (allocRecorder s)

/-- Player.tsx 442-452, the playback effect on `[isPlaying,
currentSceneIndex]`: play the current scene while playing (and not
exporting), stop and clear the source when paused (and not exporting). -/
def runPlaybackEffect (s : PState) : PState :=
  if s.isPlaying = true ∧ s.isExporting = false ∧ s.currentSceneIndex < s.scenes.length then
    playSceneAudio s false
  else if s.isPlaying = false ∧ s.isExporting = false then stopAndClear s
  else s

/-- Player.tsx 182-187, the export effect on `[isExporting,
currentSceneIndex]`. -/
def runExportEffect (s : PState) : PState :=
  if s.isExporting = true then startExportSequence s else s

/-- The effects a committed state update triggers, in declaration order
(export effect at line 182, playback effect at line 442). -/
def runEffects (s : PState) : PState :=
  runPlaybackEffect (runExportEffect s)

/-- Player.tsx 242-246 plus the recorder's `onstop` cleanup (215-230):
stop an active recorder, drop it, leave export mode and reset the index;
the state update then runs the React effects. -/
def stopRecording (s : PState) : PState :=
  match s.recorder with
  | none => s
  | some r =>
    if r.state = RecState.inactive then s
    else runEffects { s with recorder := none, isExporting := false, currentSceneIndex := 0 }

/-- Player.tsx 155-167, `handleNext`, as invoked from a render closure that
captured `capturedIndex`: advance to `capturedIndex + 1` when it was not
the last scene, otherwise finish the run (stop the recorder in export mode;
reset to scene 0 and stop playing in preview mode).  A `setState` to an
unchanged value does not re-render, so effects run only on a real change. -/
def handleNext (s : PState) (capturedIndex : Nat) (isExportRun : Bool) : PState :=
  if capturedIndex < s.scenes.length - 1 then
    if capturedIndex + 1 = s.currentSceneIndex then s
    else runEffects { s with currentSceneIndex := capturedIndex + 1 }
  else if isExportRun then stopRecording s
  else if s.isPlaying = false ∧ s.currentSceneIndex = 0 then s
  else runEffects { s with isPlaying := false, currentSceneIndex := 0 }

/-- A fired callback is consumed: an ended source never fires again and a
timer fires once. -/
def removeHandler (s : PState) (hid : Nat) : PState :=
  { s with handlers := s.handlers.filter (fun h2 => h2.hid != hid) }

/-- Fire one pending asynchronous completion.  An `onended` callback
(Player.tsx 129-131) checks its captured `isPlaying`/`isExportRun` flags; a
timer callback (83, 151) calls `handleNext` unconditionally — the guard was
already evaluated when it was armed.  Neither consults the live index. -/
def fireHandler (s : PState) (hid : Nat) : PState :=
  match s.handlers.find? (fun h => h.hid == hid) with
  | none => s
  | some h =>
    match h.kind with
    | HKind.onEnded _ =>
      if h.capturedIsPlaying = true ∨ h.isExportRun = true then
        handleNext (removeHandler s hid) h.capturedIndex h.isExportRun
      else removeHandler s hid
    | HKind.fallbackTimer _ => handleNext (removeHandler s hid) h.capturedIndex h.isExportRun

/-- Player.tsx 173-178, `togglePlay`: when starting playback, clear the
stale cache slot; flip `isPlaying`; effects run on the change. -/
def togglePlay (s : PState) : PState :=
  if s.isPlaying = false then
    runEffects { s with nextAudioBuffer := none, isPlaying := true }
  else runEffects { s with isPlaying := false }

/-- A user seek through `onSceneChange` (timeline click, shot-list click,
`handlePrev`): set the index; effects run only when it actually changes. -/
def seekTo (s : PState) (i : Nat) : PState :=
  if i = s.currentSceneIndex then s else runEffects { s with currentSceneIndex := i }

/-- App.tsx `handleExport`: reset the index to 0 and enter export mode; the
export effect then starts the export sequence. -/
def handleExport (s : PState) : PState :=
  runEffects { s with currentSceneIndex := 0, isExporting := true }

/-- One interaction with the system: the user operations the UI exposes
plus the firing of one pending asynchronous completion. -/
inductive Op
  | togglePlay
  | clickScene (i : Nat)
  | clickNext
  | clickPrev
  | beginExport
  | fire (hid : Nat)
  deriving DecidableEq, Repr

/-- One atomic step.  The click operations carry the guards the UI enforces
(controls hidden while a scene is missing, buttons disabled while
exporting or at the playlist ends). -/
def step (s : PState) (op : Op) : PState :=
  match op with
  | Op.togglePlay =>
    if s.isExporting = true ∨ ¬ s.currentSceneIndex < s.scenes.length then s
    else togglePlay s
  | Op.clickScene i =>
    if s.isExporting = true ∨ ¬ i < s.scenes.length then s else seekTo s i
  | Op.clickNext =>
    if s.isExporting = true ∨ ¬ s.currentSceneIndex < s.scenes.length ∨
        s.currentSceneIndex = s.scenes.length - 1 then s
    else handleNext s s.currentSceneIndex false
  | Op.clickPrev =>
    if s.isExporting = true ∨ ¬ s.currentSceneIndex < s.scenes.length ∨
        s.currentSceneIndex = 0 then s
    else seekTo s (s.currentSceneIndex - 1)
  | Op.beginExport =>
    if s.isExporting = true ∨ s.scenes.length = 0 then s else handleExport s
  | Op.fire hid => fireHandler s hid

/-- Run a list of operations. -/
def run (s : PState) : List Op → PState
  | [] => s
  | op :: ops => run (step s op) ops

/-- The freshly mounted Player over a scene list. -/
def initState (scenes : List Scene) : PState :=
  { scenes := scenes
    currentSceneIndex := 0
    isPlaying := false
    isExporting := false
    voiceSource := none
    nextAudioBuffer := none
    recorder := none
    handlers := []
    trace := []
    nextSid := 0
    nextHid := 0
    nextRid := 0 }

/-! ## Trace predicates -/

/-- Sources started and not yet stopped after a trace. -/
def activeStep (acc : List Nat) : AEv → List Nat
  | AEv.start sid _ _ _ => acc ++ [sid]
  | AEv.stop sid => acc.filter (fun a => a != sid)

/-- Sources started and not yet stopped over a whole trace. -/
def active (tr : List AEv) : List Nat := tr.foldl activeStep []

/-- Every prefix of the trace has at most one live narration source. -/
def PrefBound (tr : List AEv) : Prop :=
  ∀ p, p <+: tr → (active p).length ≤ 1

/-- A start event is provenance-faithful when a buffer that did not come
from the preload cache was decoded from the played scene's own payload. -/
def GoodEv : AEv → Prop
  | AEv.start _ bufSrc sceneIdx fromCache => fromCache = false → bufSrc = sceneIdx
  | AEv.stop _ => True

/-- Master invariant of the Player semantics: prefixes of the trace never
hold two live sources, live sources agree with the voice-source ref, and
every start event is provenance-faithful. -/
def StateOK (s : PState) : Prop :=
  PrefBound s.trace ∧
  (∀ sid ∈ active s.trace, ∃ v, s.voiceSource = some v ∧ v.sid = sid) ∧
  (∀ e ∈ s.trace, GoodEv e)

/-! ## part_001 — audio graph manager, drone bed, ducking -/

/-- Audio-context lifecycle state as the code observes it. -/
inductive CtxState
  | suspended
  | running
  deriving DecidableEq, Repr

/-- State owned by the earlier Player revision's audio graph code
(part_001 20-23 refs, 35-69): the context created by the mount effect, the
background-music drone source and its bed gain node, plus ghost creation
counters. -/
structure AudioGraphState where
  ctx : Option CtxState
  bgMusicSource : Option Nat
  bgMusicGain : Option Nat
  ctxCreatedCount : Nat
  droneCreatedCount : Nat
  nextNodeId : Nat
  deriving DecidableEq, Repr

/-- A never-initialised graph. -/
def freshGraph : AudioGraphState :=
  { ctx := none
    bgMusicSource := none
    bgMusicGain := none
    ctxCreatedCount := 0
    droneCreatedCount := 0
    nextNodeId := 0 }

/-- part_001 35-43, the mount effect: create the shared audio context once
(a fresh context starts suspended under autoplay policy). -/
def mountEffect (s : AudioGraphState) : AudioGraphState :=
  match s.ctx with
  | none => { s with ctx := some CtxState.suspended, ctxCreatedCount := s.ctxCreatedCount + 1 }
  | some _ => s

/-- part_001 46-69, `ensureAudioGraph`: bail out when no context exists,
resume it when suspended, and create the lofi-drone background bed (drone
source plus bed gain node) only when it is missing. -/
def ensureAudioGraph (s : AudioGraphState) : AudioGraphState :=
  match s.ctx with
  | none => s
  | some cs =>
    let s1 := if cs = CtxState.suspended then { s with ctx := some CtxState.running } else s
    match s1.bgMusicSource with
    | some _ => s1
    | none =>
      { s1 with
        bgMusicSource := some s1.nextNodeId
        bgMusicGain := some (s1.nextNodeId + 1)
        droneCreatedCount := s1.droneCreatedCount + 1
        nextNodeId := s1.nextNodeId + 2 }

/-! ## part_001 — ducking envelope -/

/-- One scheduled change on a gain node's `gain` AudioParam, mirroring the
Web Audio automation API. -/
inductive GainEvent
  | setValueAtTime (value time : ℚ)
  | setTargetAtTime (target startTime timeConstant : ℚ)
  | linearRampToValueAtTime (value endTime : ℚ)
  | exponentialRampToValueAtTime (value endTime : ℚ)
  deriving DecidableEq, Repr

/-- An immediate step change (the only non-smoothed automation kind). -/
def GainEvent.isImmediateStep : GainEvent → Prop
  | GainEvent.setValueAtTime _ _ => True
  | _ => False

/-- A smoothed transition: a set-target with a positive time constant, or a
ramp. -/
def GainEvent.isSmoothedTransition : GainEvent → Prop
  | GainEvent.setTargetAtTime _ _ tc => 0 < tc
  | GainEvent.setValueAtTime _ _ => False
  | GainEvent.linearRampToValueAtTime _ _ => True
  | GainEvent.exponentialRampToValueAtTime _ _ => True

/-- Resting level of the background bed gain (part_001 57,
audioUtils.ts 115: `gain.gain.value = 0.05`). -/
def droneRestGain : ℚ := 5 / 100

/-- Ducked floor of the bed while narration plays (part_001 108). -/
def duckFloorGain : ℚ := 2 / 100

/-- Time constant of the duck-down transition (part_001 108). -/
def duckAttackTimeConstant : ℚ := 1 / 10

/-- Time constant of the duck-release transition (part_001 125). -/
def duckReleaseTimeConstant : ℚ := 1 / 2

/-- Audio-side state of the earlier Player revision that the ducking
envelope touches: the graph, the voice-source ref, the audio clock, and
the trace of automation events scheduled on the bed gain. -/
structure DuckPlayer where
  graph : AudioGraphState
  voiceSource : Option Nat
  bedEvents : List GainEvent
  now : ℚ
  nextSid : Nat
  deriving DecidableEq, Repr

/-- part_001 72-145, `playSceneAudio`, restricted to its effect on the bed
gain: after `ensureAudioGraph`, a scene with no payload (or no context)
only arms the fallback timer; a decode failure is caught before any
scheduling; on the successful path the previous source is stopped, the new
one is built and the bed gain is ducked to the floor with
`setTargetAtTime(0.02, now, 0.1)` (line 108).  The SFX sends (112-120)
touch their own throwaway gain nodes, never the bed gain. -/
def duckPlaySceneAudio (s : DuckPlayer) (scene : Scene) : DuckPlayer :=
  match (ensureAudioGraph s.graph).ctx with
  | none => { s with graph := ensureAudioGraph s.graph }
  | some _ =>
    match scene.audioData with
    | none => { s with graph := ensureAudioGraph s.graph }
    | some bytes =>
      if decodeOk bytes then
        { s with graph := ensureAudioGraph s.graph
                 voiceSource := some s.nextSid
                 nextSid := s.nextSid + 1
                 bedEvents := s.bedEvents ++
                   (match (ensureAudioGraph s.graph).bgMusicGain with
                    | some _ =>
                      [GainEvent.setTargetAtTime duckFloorGain s.now duckAttackTimeConstant]
                    | none => []) }
      else { s with graph := ensureAudioGraph s.graph }

/-- part_001 123-128, the `onended` callback: release the duck by ramping
the bed gain back to its resting level with
`setTargetAtTime(0.05, now, 0.5)` (line 125). -/
def duckSourceEnded (s : DuckPlayer) : DuckPlayer :=
  match s.graph.bgMusicGain with
  | some _ =>
    { s with bedEvents := s.bedEvents ++
        [GainEvent.setTargetAtTime droneRestGain s.now duckReleaseTimeConstant] }
  | none => s

/-! ## Concrete scenes used by closed statements -/

/-- A scene with a decodable two-byte narration payload. -/
def sAudio (i : Nat) : Scene :=
  { id := i, text := "", audioData := some [0, 0], imageUrl := some "u", effect := Effect.zoomIn }

/-- A scene with no narration payload. -/
def sNoAudio (i : Nat) : Scene :=
  { id := i, text := "", audioData := none, imageUrl := none, effect := Effect.zoomIn }

/-- A scene whose narration payload has odd length, so decoding throws. -/
def sBadAudio (i : Nat) : Scene :=
  { id := i, text := "", audioData := some [0], imageUrl := some "u", effect := Effect.zoomIn }

/-- A mounted earlier-revision player whose audio graph (context plus
drone bed) is in place. -/
def duckDemo : DuckPlayer :=
  { graph := ensureAudioGraph (mountEffect freshGraph)
    voiceSource := none
    bedEvents := []
    now := 0
    nextSid := 0 }

/-! ## Supporting lemmas: PCM decoding -/

theorem toInt16_bounds (lo hi : Fin 256) : -32768 ≤ toInt16 lo hi ∧ toInt16 lo hi < 32768 := by
  have hlo := lo.isLt
  have hhi := hi.isLt
  unfold toInt16
  split <;> omega

theorem bytesToInt16_mem_bounds :
    ∀ l : List (Fin 256), ∀ x ∈ bytesToInt16 l, -32768 ≤ x ∧ x < 32768
  | [] => by intro x hx; simp [bytesToInt16] at hx
  | [_] => by intro x hx; simp [bytesToInt16] at hx
  | lo :: hi :: rest => by
    intro x hx
    simp only [bytesToInt16, List.mem_cons] at hx
    rcases hx with rfl | hx
    · exact toInt16_bounds lo hi
    · exact bytesToInt16_mem_bounds rest x hx

theorem range_map_getD {α : Type} (n c : Nat) (f : Nat → α) (d : α) (h : c < n) :
    ((List.range n).map f).getD c d = f c := by
  have hc : c < ((List.range n).map f).length := by simpa using h
  rw [List.getD_eq_getElem _ _ hc]
  simp

/-- C10: for an input byte array viewed as interleaved signed 16-bit
samples over `numChannels` channels, `decodeAudioData` yields a buffer with
`samples / numChannels` frames whose sample at channel `c`, frame `i` is
the integer `dataInt16[i*C+c]` divided by 32768, so every output sample
lies in the interval from -1 inclusive to 1 exclusive. -/
theorem decodeAudioData_pcm_invariant (data : List (Fin 256)) (numChannels : Nat)
    (hC : 0 < numChannels) (h2 : data.length % 2 = 0)
    (hdvd : numChannels ∣ (bytesToInt16 data).length) :
    ∃ buf, decodeAudioData data numChannels = some buf ∧
      buf.frameCount = (bytesToInt16 data).length / numChannels ∧
      ∀ c, c < numChannels → ∀ i, i < buf.frameCount →
        (buf.channelData.getD c []).getD i 0 =
          (((bytesToInt16 data).getD (i * numChannels + c) 0 : Int) : ℚ) / 32768 ∧
        -1 ≤ (buf.channelData.getD c []).getD i 0 ∧
        (buf.channelData.getD c []).getD i 0 < 1 := by
  unfold decodeAudioData
  rw [if_pos h2]
  refine ⟨_, rfl, rfl, ?_⟩
  intro c hc i hi
  have hval : ((((List.range numChannels).map (fun c =>
      (List.range ((bytesToInt16 data).length / numChannels)).map (fun i =>
        (((bytesToInt16 data).getD (i * numChannels + c) 0 : Int) : ℚ) / 32768))).getD c []).getD i 0) =
      (((bytesToInt16 data).getD (i * numChannels + c) 0 : Int) : ℚ) / 32768 := by
    rw [range_map_getD _ _ _ _ hc, range_map_getD _ _ _ _ hi]
  refine ⟨hval, ?_, ?_⟩ <;> rw [hval]
  all_goals {
    have hlen : ((bytesToInt16 data).length / numChannels) * numChannels =
        (bytesToInt16 data).length := Nat.div_mul_cancel hdvd
    have hidx : i * numChannels + c < (bytesToInt16 data).length := by
      have h1 : i * numChannels + c < (i + 1) * numChannels := by
        rw [Nat.add_mul, Nat.one_mul]; omega
      have h2 : (i + 1) * numChannels ≤
          ((bytesToInt16 data).length / numChannels) * numChannels :=
        Nat.mul_le_mul_right _ hi
      omega
    have hmem : (bytesToInt16 data).getD (i * numChannels + c) 0 ∈ bytesToInt16 data := by
      rw [List.getD_eq_getElem _ _ hidx]
      exact List.getElem_mem _
    have hb := bytesToInt16_mem_bounds data _ hmem
    first
      | · rw [le_div_iff₀ (by norm_num : (0 : ℚ) < 32768)]
          have : (-32768 : ℚ) ≤ ((bytesToInt16 data).getD (i * numChannels + c) 0 : Int) := by
            exact_mod_cast hb.1
          linarith
      | · rw [div_lt_iff₀ (by norm_num : (0 : ℚ) < 32768)]
          have : (((bytesToInt16 data).getD (i * numChannels + c) 0 : Int) : ℚ) < 32768 := by
            exact_mod_cast hb.2
          linarith
  }

/-- C10 witness: a concrete three-sample mono payload. -/
theorem decodeAudioData_pcm_invariant_witness :
    (0 < 1) ∧ (([(0 : Fin 256), 0, 255, 127, 0, 128] : List (Fin 256)).length % 2 = 0) ∧
    (1 ∣ (bytesToInt16 [(0 : Fin 256), 0, 255, 127, 0, 128]).length) ∧
    (∃ buf, decodeAudioData [(0 : Fin 256), 0, 255, 127, 0, 128] 1 = some buf ∧
      buf.frameCount = (bytesToInt16 [(0 : Fin 256), 0, 255, 127, 0, 128]).length / 1 ∧
      ∀ c, c < 1 → ∀ i, i < buf.frameCount →
        (buf.channelData.getD c []).getD i 0 =
          (((bytesToInt16 [(0 : Fin 256), 0, 255, 127, 0, 128]).getD (i * 1 + c) 0 : Int) : ℚ) /
            32768 ∧
        -1 ≤ (buf.channelData.getD c []).getD i 0 ∧
        (buf.channelData.getD c []).getD i 0 < 1) :=
  ⟨by decide, by decide, by decide,
    decodeAudioData_pcm_invariant [(0 : Fin 256), 0, 255, 127, 0, 128] 1
      (by decide) (by decide) (by decide)⟩

/-! ## C4: the visual transform -/

/-- C4: for every motion directive and every progress in the unit
interval, `computeTransform` is the documented piecewise-linear map
(zoom-in scale 1 to 1.15 at translateX 0, zoom-out 1.15 to 1, pans hold
scale 1.1 and translate by plus or minus 30 times progress), and the
outputs at progress 0 and 1 are exactly the documented start and end
values. -/
theorem computeTransform_piecewise_linear (p : ℚ) (h0 : 0 ≤ p) (h1 : p ≤ 1) :
    (computeTransform Effect.zoomIn p = { scale := 1 + 3 / 20 * p, translateX := 0 } ∧
     computeTransform Effect.zoomOut p = { scale := 23 / 20 - 3 / 20 * p, translateX := 0 } ∧
     computeTransform Effect.panLeft p = { scale := 11 / 10, translateX := -(30 * p) } ∧
     computeTransform Effect.panRight p = { scale := 11 / 10, translateX := 30 * p }) ∧
    (computeTransform Effect.zoomIn 0 = { scale := 1, translateX := 0 } ∧
     computeTransform Effect.zoomIn 1 = { scale := 23 / 20, translateX := 0 } ∧
     computeTransform Effect.zoomOut 0 = { scale := 23 / 20, translateX := 0 } ∧
     computeTransform Effect.zoomOut 1 = { scale := 1, translateX := 0 } ∧
     computeTransform Effect.panLeft 0 = { scale := 11 / 10, translateX := 0 } ∧
     computeTransform Effect.panLeft 1 = { scale := 11 / 10, translateX := -30 } ∧
     computeTransform Effect.panRight 0 = { scale := 11 / 10, translateX := 0 } ∧
     computeTransform Effect.panRight 1 = { scale := 11 / 10, translateX := 30 }) := by
  refine ⟨⟨?_, ?_, ?_, ?_⟩, ⟨?_, ?_, ?_, ?_, ?_, ?_, ?_, ?_⟩⟩ <;>
    simp only [computeTransform, Transform.mk.injEq] <;> norm_num

/-- C4 witness at progress one half. -/
theorem computeTransform_piecewise_linear_witness :
    ((0 : ℚ) ≤ 1 / 2) ∧ ((1 : ℚ) / 2 ≤ 1) ∧
    (computeTransform Effect.zoomIn (1 / 2) = { scale := 1 + 3 / 20 * (1 / 2), translateX := 0 } ∧
     computeTransform Effect.zoomOut (1 / 2) =
       { scale := 23 / 20 - 3 / 20 * (1 / 2), translateX := 0 } ∧
     computeTransform Effect.panLeft (1 / 2) =
       { scale := 11 / 10, translateX := -(30 * (1 / 2)) } ∧
     computeTransform Effect.panRight (1 / 2) =
       { scale := 11 / 10, translateX := 30 * (1 / 2) }) :=
  ⟨by norm_num, by norm_num,
    (computeTransform_piecewise_linear (1 / 2) (by norm_num) (by norm_num)).1⟩

/-! ## Projection lemmas for the Player semantics -/

@[simp] theorem armTimer_trace (s : PState) (d : Nat) (ex : Bool) :
    (armTimer s d ex).trace = s.trace := rfl

@[simp] theorem armTimer_voice (s : PState) (d : Nat) (ex : Bool) :
    (armTimer s d ex).voiceSource = s.voiceSource := rfl

@[simp] theorem armTimer_idx (s : PState) (d : Nat) (ex : Bool) :
    (armTimer s d ex).currentSceneIndex = s.currentSceneIndex := rfl

@[simp] theorem armTimer_recorder (s : PState) (d : Nat) (ex : Bool) :
    (armTimer s d ex).recorder = s.recorder := rfl

@[simp] theorem armTimer_nextRid (s : PState) (d : Nat) (ex : Bool) :
    (armTimer s d ex).nextRid = s.nextRid := rfl

@[simp] theorem armTimer_handlers (s : PState) (d : Nat) (ex : Bool) :
    (armTimer s d ex).handlers = s.handlers ++
      [{ hid := s.nextHid
         kind := HKind.fallbackTimer d
         capturedIndex := s.currentSceneIndex
         capturedIsPlaying := s.isPlaying
         isExportRun := ex }] := rfl

@[simp] theorem clearCache_trace (s : PState) : (clearCache s).trace = s.trace := rfl

@[simp] theorem clearCache_voice (s : PState) :
    (clearCache s).voiceSource = s.voiceSource := rfl

@[simp] theorem clearCache_idx (s : PState) :
    (clearCache s).currentSceneIndex = s.currentSceneIndex := rfl

@[simp] theorem clearCache_nextSid (s : PState) : (clearCache s).nextSid = s.nextSid := rfl

@[simp] theorem clearCache_isPlaying (s : PState) :
    (clearCache s).isPlaying = s.isPlaying := rfl

@[simp] theorem clearCache_recorder (s : PState) :
    (clearCache s).recorder = s.recorder := rfl

@[simp] theorem clearCache_nextRid (s : PState) :
    (clearCache s).nextRid = s.nextRid := rfl

@[simp] theorem clearCache_handlers (s : PState) :
    (clearCache s).handlers = s.handlers := rfl

@[simp] theorem stopPrev_voice (s : PState) : (stopPrev s).voiceSource = s.voiceSource := by
  unfold stopPrev; split <;> rfl

@[simp] theorem stopPrev_idx (s : PState) :
    (stopPrev s).currentSceneIndex = s.currentSceneIndex := by
  unfold stopPrev; split <;> rfl

@[simp] theorem stopPrev_nextSid (s : PState) : (stopPrev s).nextSid = s.nextSid := by
  unfold stopPrev; split <;> rfl

@[simp] theorem stopPrev_nextHid (s : PState) : (stopPrev s).nextHid = s.nextHid := by
  unfold stopPrev; split <;> rfl

@[simp] theorem stopPrev_isPlaying (s : PState) : (stopPrev s).isPlaying = s.isPlaying := by
  unfold stopPrev; split <;> rfl

@[simp] theorem stopPrev_recorder (s : PState) : (stopPrev s).recorder = s.recorder := by
  unfold stopPrev; split <;> rfl

@[simp] theorem stopPrev_nextRid (s : PState) : (stopPrev s).nextRid = s.nextRid := by
  unfold stopPrev; split <;> rfl

@[simp] theorem stopPrev_handlers (s : PState) : (stopPrev s).handlers = s.handlers := by
  unfold stopPrev; split <;> rfl

@[simp] theorem preload_trace (s : PState) (i : Nat) :
    (preloadNextAudio s i).trace = s.trace := by
  unfold preloadNextAudio
  split
  · rfl
  · split
    · rfl
    · split <;> rfl

@[simp] theorem preload_voice (s : PState) (i : Nat) :
    (preloadNextAudio s i).voiceSource = s.voiceSource := by
  unfold preloadNextAudio
  split
  · rfl
  · split
    · rfl
    · split <;> rfl

@[simp] theorem preload_idx (s : PState) (i : Nat) :
    (preloadNextAudio s i).currentSceneIndex = s.currentSceneIndex := by
  unfold preloadNextAudio
  split
  · rfl
  · split
    · rfl
    · split <;> rfl

@[simp] theorem preload_recorder (s : PState) (i : Nat) :
    (preloadNextAudio s i).recorder = s.recorder := by
  unfold preloadNextAudio
  split
  · rfl
  · split
    · rfl
    · split <;> rfl

@[simp] theorem preload_nextRid (s : PState) (i : Nat) :
    (preloadNextAudio s i).nextRid = s.nextRid := by
  unfold preloadNextAudio
  split
  · rfl
  · split
    · rfl
    · split <;> rfl

@[simp] theorem preload_handlers (s : PState) (i : Nat) :
    (preloadNextAudio s i).handlers = s.handlers := by
  unfold preloadNextAudio
  split
  · rfl
  · split
    · rfl
    · split <;> rfl

theorem preload_cacheTarget (s : PState) (i : Nat) :
    (preloadNextAudio s i).nextAudioBuffer = s.nextAudioBuffer ∨
    (preloadNextAudio s i).nextAudioBuffer = some (i + 1) := by
  unfold preloadNextAudio
  split
  · exact Or.inl rfl
  · split
    · exact Or.inl rfl
    · split
      · exact Or.inr rfl
      · exact Or.inl rfl

@[simp] theorem startSource_trace (s : PState) (b : Nat) (c ex : Bool) :
    (startSource s b c ex).trace =
      s.trace ++ [AEv.start s.nextSid b s.currentSceneIndex c] := rfl

@[simp] theorem startSource_voice (s : PState) (b : Nat) (c ex : Bool) :
    (startSource s b c ex).voiceSource = some { sid := s.nextSid, bufSrc := b } := rfl

@[simp] theorem startSource_idx (s : PState) (b : Nat) (c ex : Bool) :
    (startSource s b c ex).currentSceneIndex = s.currentSceneIndex := rfl

@[simp] theorem startSource_recorder (s : PState) (b : Nat) (c ex : Bool) :
    (startSource s b c ex).recorder = s.recorder := rfl

@[simp] theorem startSource_nextRid (s : PState) (b : Nat) (c ex : Bool) :
    (startSource s b c ex).nextRid = s.nextRid := rfl

@[simp] theorem startSource_handlers (s : PState) (b : Nat) (c ex : Bool) :
    (startSource s b c ex).handlers = s.handlers ++
      [{ hid := s.nextHid
         kind := HKind.onEnded s.nextSid
         capturedIndex := s.currentSceneIndex
         capturedIsPlaying := s.isPlaying
         isExportRun := ex }] := rfl

theorem finishStart_trace (s : PState) (b : Nat) (c ex : Bool) :
    (finishStart s b c ex).trace =
      s.trace ++ [AEv.start s.nextSid b s.currentSceneIndex c] := by
  unfold finishStart
  split <;> simp

@[simp] theorem finishStart_idx (s : PState) (b : Nat) (c ex : Bool) :
    (finishStart s b c ex).currentSceneIndex = s.currentSceneIndex := by
  unfold finishStart
  split <;> simp

@[simp] theorem finishStart_recorder (s : PState) (b : Nat) (c ex : Bool) :
    (finishStart s b c ex).recorder = s.recorder := by
  unfold finishStart
  split <;> simp

@[simp] theorem finishStart_nextRid (s : PState) (b : Nat) (c ex : Bool) :
    (finishStart s b c ex).nextRid = s.nextRid := by
  unfold finishStart
  split <;> simp

@[simp] theorem finishStart_handlers (s : PState) (b : Nat) (c ex : Bool) :
    (finishStart s b c ex).handlers = s.handlers ++
      [{ hid := s.nextHid
         kind := HKind.onEnded s.nextSid
         capturedIndex := s.currentSceneIndex
         capturedIsPlaying := s.isPlaying
         isExportRun := ex }] := by
  unfold finishStart
  split <;> simp

theorem playSceneAudio_idx (s : PState) (ex : Bool) :
    (playSceneAudio s ex).currentSceneIndex = s.currentSceneIndex := by
  unfold playSceneAudio
  split
  · rfl
  · split
    · split <;> simp
    · split
      · simp
      · split
        · simp
        · split <;> simp

theorem playSceneAudio_recorder (s : PState) (ex : Bool) :
    (playSceneAudio s ex).recorder = s.recorder := by
  unfold playSceneAudio
  split
  · rfl
  · split
    · split <;> simp
    · split
      · simp
      · split
        · simp
        · split <;> simp

theorem playSceneAudio_nextRid (s : PState) (ex : Bool) :
    (playSceneAudio s ex).nextRid = s.nextRid := by
  unfold playSceneAudio
  split
  · rfl
  · split
    · split <;> simp
    · split
      · simp
      · split
        · simp
        · split <;> simp

theorem exportPlayPhase_idx (s : PState) :
    (exportPlayPhase s).currentSceneIndex = s.currentSceneIndex := by
  unfold exportPlayPhase
  split
  · split
    · exact playSceneAudio_idx s true
    · rfl
  · rfl

theorem exportPlayPhase_nextRid (s : PState) : (exportPlayPhase s).nextRid = s.nextRid := by
  unfold exportPlayPhase
  split
  · split
    · exact playSceneAudio_nextRid s true
    · rfl
  · rfl

theorem exportPlayPhase_recorder (s : PState) :
    (exportPlayPhase s).recorder = s.recorder := by
  unfold exportPlayPhase
  split
  · split
    · exact playSceneAudio_recorder s true
    · rfl
  · rfl

theorem allocRecorder_idx (s : PState) :
    (allocRecorder s).currentSceneIndex = s.currentSceneIndex := by
  unfold allocRecorder
  split <;> rfl

theorem stopAndClear_idx (s : PState) :
    (stopAndClear s).currentSceneIndex = s.currentSceneIndex := by
  unfold stopAndClear
  split <;> rfl

theorem startExport_idx (s : PState) :
    (startExportSequence s).currentSceneIndex = s.currentSceneIndex := by
  unfold startExportSequence
  rw [exportPlayPhase_idx, allocRecorder_idx]

theorem runPlaybackEffect_idx (s : PState) :
    (runPlaybackEffect s).currentSceneIndex = s.currentSceneIndex := by
  unfold runPlaybackEffect
  split
  · exact playSceneAudio_idx s false
  · split
    · exact stopAndClear_idx s
    · rfl

theorem runExportEffect_idx (s : PState) :
    (runExportEffect s).currentSceneIndex = s.currentSceneIndex := by
  unfold runExportEffect
  split
  · exact startExport_idx s
  · rfl

theorem runEffects_idx (s : PState) :
    (runEffects s).currentSceneIndex = s.currentSceneIndex := by
  unfold runEffects
  rw [runPlaybackEffect_idx, runExportEffect_idx]

/-! ## Trace lemmas -/

theorem active_append (tr es : List AEv) :
    active (tr ++ es) = es.foldl activeStep (active tr) := by
  unfold active
  rw [List.foldl_append]

theorem active_snoc (tr : List AEv) (e : AEv) :
    active (tr ++ [e]) = activeStep (active tr) e := by
  rw [active_append]
  rfl

theorem pref_snoc {p tr : List AEv} {e : AEv} (h : p <+: tr ++ [e]) :
    p <+: tr ∨ p = tr ++ [e] := by
  obtain ⟨t, ht⟩ := h
  rcases List.eq_nil_or_concat t with rfl | ⟨ts, a, rfl⟩
  · right
    simpa using ht
  · left
    have ht2 : (p ++ ts) ++ [a] = tr ++ [e] := by simpa [List.append_assoc] using ht
    exact ⟨ts, (List.append_inj' ht2 rfl).1⟩

theorem prefBound_snoc {tr : List AEv} {e : AEv} (h : PrefBound tr)
    (hlast : (active (tr ++ [e])).length ≤ 1) : PrefBound (tr ++ [e]) := by
  intro p hp
  rcases pref_snoc hp with hp | rfl
  · exact h p hp
  · exact hlast

/-! ## Preservation of the master invariant -/

theorem stateOK_congr {s s' : PState} (h : StateOK s) (ht : s'.trace = s.trace)
    (hv : s'.voiceSource = s.voiceSource) : StateOK s' := by
  obtain ⟨h1, h2, h3⟩ := h
  refine ⟨?_, ?_, ?_⟩
  · rw [ht]; exact h1
  · intro sid hsid
    rw [ht] at hsid
    rw [hv]
    exact h2 sid hsid
  · intro e he
    rw [ht] at he
    exact h3 e he

theorem stateOK_of_active_nil {s : PState} (h1 : PrefBound s.trace)
    (ha : active s.trace = []) (h3 : ∀ e ∈ s.trace, GoodEv e) : StateOK s := by
  refine ⟨h1, ?_, h3⟩
  intro sid hsid
  rw [ha] at hsid
  cases hsid

theorem active_nil_of_none {s : PState} (h : StateOK s) (hv : s.voiceSource = none) :
    active s.trace = [] := by
  rcases hl : active s.trace with _ | ⟨sid, rest⟩
  · rfl
  · obtain ⟨v, hv2, _⟩ := h.2.1 sid (by rw [hl]; exact List.mem_cons_self _ _)
    rw [hv] at hv2
    cases hv2

theorem active_sub_of_some {s : PState} (h : StateOK s) {v : Source}
    (hv : s.voiceSource = some v) : ∀ sid ∈ active s.trace, sid = v.sid := by
  intro sid hsid
  obtain ⟨v2, hv2, he⟩ := h.2.1 sid hsid
  rw [hv] at hv2
  cases hv2
  exact he.symm

theorem stateOK_emitStop {s : PState} (h : StateOK s) {v : Source}
    (hv : s.voiceSource = some v) (tr : List AEv)
    (htr : tr = s.trace ++ [AEv.stop v.sid]) :
    PrefBound tr ∧ active tr = [] ∧ ∀ e ∈ tr, GoodEv e := by
  subst htr
  have hsub := active_sub_of_some h hv
  have ha : active (s.trace ++ [AEv.stop v.sid]) = [] := by
    rw [active_snoc]
    show (active s.trace).filter (fun a => a != v.sid) = []
    rw [List.filter_eq_nil_iff]
    intro a hmem
    simp [hsub a hmem]
  refine ⟨prefBound_snoc h.1 (by rw [ha]; simp), ha, ?_⟩
  intro e he
  rcases List.mem_append.mp he with he | he
  · exact h.2.2 e he
  · simp only [List.mem_singleton] at he
    subst he
    trivial

theorem stateOK_stopPrev {s : PState} (h : StateOK s) :
    StateOK (stopPrev s) ∧ active (stopPrev s).trace = [] := by
  rcases hv : s.voiceSource with _ | v
  · have htr : (stopPrev s).trace = s.trace := by simp [stopPrev, hv]
    have ha := active_nil_of_none h hv
    exact ⟨stateOK_congr h htr (by simp [stopPrev, hv]), by rw [htr]; exact ha⟩
  · have htr : (stopPrev s).trace = s.trace ++ [AEv.stop v.sid] := by simp [stopPrev, hv]
    obtain ⟨p1, p2, p3⟩ := stateOK_emitStop h hv _ htr
    exact ⟨stateOK_of_active_nil p1 p2 p3, p2⟩

theorem stateOK_stopAndClear {s : PState} (h : StateOK s) : StateOK (stopAndClear s) := by
  rcases hv : s.voiceSource with _ | v
  · exact stateOK_congr h (by simp [stopAndClear, hv]) (by simp [stopAndClear, hv])
  · have htr : (stopAndClear s).trace = s.trace ++ [AEv.stop v.sid] := by
      simp [stopAndClear, hv]
    obtain ⟨p1, p2, p3⟩ := stateOK_emitStop h hv _ htr
    exact stateOK_of_active_nil p1 p2 p3

theorem stateOK_armTimer {s : PState} (h : StateOK s) (d : Nat) (ex : Bool) :
    StateOK (armTimer s d ex) :=
  stateOK_congr h rfl rfl

theorem stateOK_preload {s : PState} (h : StateOK s) (i : Nat) :
    StateOK (preloadNextAudio s i) :=
  stateOK_congr h (preload_trace s i) (preload_voice s i)

theorem stateOK_startSource {s : PState} (h : StateOK s) (ha : active s.trace = [])
    (b : Nat) (c ex : Bool) (hgood : c = true ∨ b = s.currentSceneIndex) :
    StateOK (startSource s b c ex) := by
  have htr : (startSource s b c ex).trace =
      s.trace ++ [AEv.start s.nextSid b s.currentSceneIndex c] := rfl
  have ha2 : active (startSource s b c ex).trace = [s.nextSid] := by
    rw [htr, active_snoc, ha]
    rfl
  refine ⟨?_, ?_, ?_⟩
  · rw [htr]
    refine prefBound_snoc h.1 ?_
    rw [← htr, ha2]
    simp
  · intro sid hsid
    rw [ha2] at hsid
    simp only [List.mem_singleton] at hsid
    subst hsid
    exact ⟨{ sid := s.nextSid, bufSrc := b }, rfl, rfl⟩
  · intro e he
    rw [htr] at he
    rcases List.mem_append.mp he with he | he
    · exact h.2.2 e he
    · simp only [List.mem_singleton] at he
      subst he
      intro hc
      rcases hgood with hg | hg
      · rw [hg] at hc; cases hc
      · exact hg

theorem stateOK_finishStart {s : PState} (h : StateOK s) (ha : active s.trace = [])
    (b : Nat) (c ex : Bool) (hgood : c = true ∨ b = s.currentSceneIndex) :
    StateOK (finishStart s b c ex) := by
  have h3 := stateOK_startSource h ha b c ex hgood
  unfold finishStart
  split
  · exact stateOK_congr h3 (preload_trace _ _) (preload_voice _ _)
  · exact h3

theorem stateOK_playSceneAudio {s : PState} (h : StateOK s) (ex : Bool) :
    StateOK (playSceneAudio s ex) := by
  obtain ⟨h1, ha⟩ := stateOK_stopPrev h
  unfold playSceneAudio
  split
  · exact h
  · split
    · split
      · exact stateOK_armTimer h _ _
      · exact h
    · split
      · exact stateOK_finishStart
          (show StateOK (clearCache (stopPrev s)) from stateOK_congr h1 rfl rfl)
          (show active (clearCache (stopPrev s)).trace = [] from ha) _ _ _ (Or.inl rfl)
      · split
        · exact stateOK_finishStart h1 ha _ _ _ (Or.inr (stopPrev_idx s).symm)
        · split
          · exact stateOK_armTimer h1 _ _
          · exact h1

theorem stateOK_exportPlayPhase {s : PState} (h : StateOK s) :
    StateOK (exportPlayPhase s) := by
  unfold exportPlayPhase
  split
  · split
    · exact stateOK_playSceneAudio h true
    · exact h
  · exact h

theorem stateOK_allocRecorder {s : PState} (h : StateOK s) : StateOK (allocRecorder s) := by
  unfold allocRecorder
  split
  · exact stateOK_congr h rfl rfl
  · exact h

theorem stateOK_startExport {s : PState} (h : StateOK s) :
    StateOK (startExportSequence s) :=
  stateOK_exportPlayPhase (stateOK_allocRecorder h)

theorem stateOK_runPlaybackEffect {s : PState} (h : StateOK s) :
    StateOK (runPlaybackEffect s) := by
  unfold runPlaybackEffect
  split
  · exact stateOK_playSceneAudio h false
  · split
    · exact stateOK_stopAndClear h
    · exact h

theorem stateOK_runExportEffect {s : PState} (h : StateOK s) :
    StateOK (runExportEffect s) := by
  unfold runExportEffect
  split
  · exact stateOK_startExport h
  · exact h

theorem stateOK_runEffects {s : PState} (h : StateOK s) : StateOK (runEffects s) :=
  stateOK_runPlaybackEffect (stateOK_runExportEffect h)

theorem stateOK_stopRecording {s : PState} (h : StateOK s) : StateOK (stopRecording s) := by
  unfold stopRecording
  split
  · exact h
  · split
    · exact h
    · exact stateOK_runEffects (stateOK_congr h rfl rfl)

theorem stateOK_handleNext {s : PState} (h : StateOK s) (ci : Nat) (ex : Bool) :
    StateOK (handleNext s ci ex) := by
  unfold handleNext
  split
  · split
    · exact h
    · exact stateOK_runEffects (stateOK_congr h rfl rfl)
  · split
    · exact stateOK_stopRecording h
    · split
      · exact h
      · exact stateOK_runEffects (stateOK_congr h rfl rfl)

theorem stateOK_removeHandler {s : PState} (h : StateOK s) (hid : Nat) :
    StateOK (removeHandler s hid) :=
  stateOK_congr h rfl rfl

theorem stateOK_fireHandler {s : PState} (h : StateOK s) (hid : Nat) :
    StateOK (fireHandler s hid) := by
  unfold fireHandler
  split
  · exact h
  · split
    · split
      · exact stateOK_handleNext (stateOK_removeHandler h hid) _ _
      · exact stateOK_removeHandler h hid
    · exact stateOK_handleNext (stateOK_removeHandler h hid) _ _

theorem stateOK_togglePlay {s : PState} (h : StateOK s) : StateOK (togglePlay s) := by
  unfold togglePlay
  split
  · exact stateOK_runEffects (stateOK_congr h rfl rfl)
  · exact stateOK_runEffects (stateOK_congr h rfl rfl)

theorem stateOK_seekTo {s : PState} (h : StateOK s) (i : Nat) : StateOK (seekTo s i) := by
  unfold seekTo
  split
  · exact h
  · exact stateOK_runEffects (stateOK_congr h rfl rfl)

theorem stateOK_handleExport {s : PState} (h : StateOK s) : StateOK (handleExport s) :=
  stateOK_runEffects (stateOK_congr h rfl rfl)

theorem stateOK_step {s : PState} (h : StateOK s) (op : Op) : StateOK (step s op) := by
  cases op with
  | togglePlay =>
    simp only [step]
    split
    · exact h
    · exact stateOK_togglePlay h
  | clickScene i =>
    simp only [step]
    split
    · exact h
    · exact stateOK_seekTo h _
  | clickNext =>
    simp only [step]
    split
    · exact h
    · exact stateOK_handleNext h _ _
  | clickPrev =>
    simp only [step]
    split
    · exact h
    · exact stateOK_seekTo h _
  | beginExport =>
    simp only [step]
    split
    · exact h
    · exact stateOK_handleExport h
  | fire hid =>
    exact stateOK_fireHandler h hid

theorem stateOK_run {s : PState} (h : StateOK s) (ops : List Op) :
    StateOK (run s ops) := by
  induction ops generalizing s with
  | nil => exact h
  | cons op ops ih => exact ih (stateOK_step h op)

theorem stateOK_init (scenes : List Scene) : StateOK (initState scenes) := by
  refine ⟨?_, ?_, ?_⟩
  · intro p hp
    obtain ⟨t, ht⟩ := hp
    obtain ⟨rfl, rfl⟩ := List.append_eq_nil.mp ht
    simp [active]
  · intro sid hsid
    cases hsid
  · intro e he
    cases he

@[simp] theorem stopPrev_cache (s : PState) :
    (stopPrev s).nextAudioBuffer = s.nextAudioBuffer := by
  unfold stopPrev; split <;> rfl

@[simp] theorem removeHandler_idx (s : PState) (hid : Nat) :
    (removeHandler s hid).currentSceneIndex = s.currentSceneIndex := rfl

@[simp] theorem removeHandler_scenes (s : PState) (hid : Nat) :
    (removeHandler s hid).scenes = s.scenes := rfl

theorem handleNext_advance_idx (s : PState) (ci : Nat) (ex : Bool)
    (hlt : ci < s.scenes.length - 1) :
    (handleNext s ci ex).currentSceneIndex = ci + 1 := by
  unfold handleNext
  rw [if_pos hlt]
  split
  · rename_i hEq
    exact hEq.symm
  · exact runEffects_idx _

/-! ## C1: no overlapping narration -/

/-- C1: over every sequence of play, advance and seek operations, every
prefix of the audio event trace has at most one live (started and not yet
stopped) narration source; and whenever `playSceneAudio` runs while a
previous source is still registered, any start it emits is preceded in its
trace extension by the stop of that previous source, in program order. -/
theorem narration_single_active_path (scenes : List Scene) (ops : List Op) :
    (∀ p, p <+: (run (initState scenes) ops).trace → (active p).length ≤ 1) ∧
    (∀ (s : PState) (ex : Bool) (v : Source), s.voiceSource = some v →
      (playSceneAudio s ex).trace = s.trace ∨
      (playSceneAudio s ex).trace = s.trace ++ [AEv.stop v.sid] ∨
      ∃ b i c, (playSceneAudio s ex).trace =
        s.trace ++ [AEv.stop v.sid, AEv.start s.nextSid b i c]) := by
  constructor
  · exact (stateOK_run (stateOK_init scenes) ops).1
  · intro s ex v hv
    have htr : (stopPrev s).trace = s.trace ++ [AEv.stop v.sid] := by simp [stopPrev, hv]
    unfold playSceneAudio
    split
    · exact Or.inl rfl
    · split
      · split
        · exact Or.inl rfl
        · exact Or.inl rfl
      · split
        · rename_i k hk
          right; right
          refine ⟨k, s.currentSceneIndex, true, ?_⟩
          rw [finishStart_trace]
          simp [htr]
        · split
          · right; right
            refine ⟨s.currentSceneIndex, s.currentSceneIndex, false, ?_⟩
            rw [finishStart_trace]
            simp [htr]
          · split
            · exact Or.inr (Or.inl htr)
            · exact Or.inr (Or.inl htr)

/-- C1 witness: a two-scene run with an advance, and one concrete
`playSceneAudio` call over a registered source. -/
theorem narration_single_active_path_witness :
    (([AEv.start 0 0 0 false, AEv.stop 0] : List AEv) <+:
      (run (initState [sAudio 0, sAudio 1]) [Op.togglePlay, Op.clickNext]).trace) ∧
    (active [AEv.start 0 0 0 false, AEv.stop 0]).length ≤ 1 ∧
    (({ initState [sAudio 0] with
        voiceSource := some { sid := 7, bufSrc := 0 } } : PState).voiceSource =
      some { sid := 7, bufSrc := 0 }) ∧
    ((playSceneAudio { initState [sAudio 0] with
        voiceSource := some { sid := 7, bufSrc := 0 } } false).trace =
        ({ initState [sAudio 0] with
           voiceSource := some { sid := 7, bufSrc := 0 } } : PState).trace ∨
     (playSceneAudio { initState [sAudio 0] with
        voiceSource := some { sid := 7, bufSrc := 0 } } false).trace =
        ({ initState [sAudio 0] with
           voiceSource := some { sid := 7, bufSrc := 0 } } : PState).trace ++ [AEv.stop 7] ∨
     ∃ b i c, (playSceneAudio { initState [sAudio 0] with
        voiceSource := some { sid := 7, bufSrc := 0 } } false).trace =
        ({ initState [sAudio 0] with
           voiceSource := some { sid := 7, bufSrc := 0 } } : PState).trace ++
          [AEv.stop 7, AEv.start ({ initState [sAudio 0] with
            voiceSource := some { sid := 7, bufSrc := 0 } } : PState).nextSid b i c]) :=
  ⟨⟨[AEv.start 1 1 1 true], by decide⟩,
   (narration_single_active_path [sAudio 0, sAudio 1] [Op.togglePlay, Op.clickNext]).1
     [AEv.start 0 0 0 false, AEv.stop 0] ⟨[AEv.start 1 1 1 true], by decide⟩,
   rfl,
   (narration_single_active_path [] []).2
     { initState [sAudio 0] with voiceSource := some { sid := 7, bufSrc := 0 } }
     false { sid := 7, bufSrc := 0 } rfl⟩

/-! ## C2: stale async completions -/

/-- C2 counterexample: after arming the no-narration timer on scene 0 and
seeking to scene 2, the pending handler for scene 0 is stale
(capturedIndex 0, active index 2), yet firing it is not a silent discard —
it changes the state, advancing the sequencer. -/
theorem stale_completion_not_discarded :
    (run (initState [sNoAudio 0, sNoAudio 1, sNoAudio 2])
      [Op.togglePlay, Op.clickScene 2]).currentSceneIndex = 2 ∧
    ∃ h, h ∈ (run (initState [sNoAudio 0, sNoAudio 1, sNoAudio 2])
        [Op.togglePlay, Op.clickScene 2]).handlers ∧
      h.capturedIndex ≠ 2 ∧
      fireHandler (run (initState [sNoAudio 0, sNoAudio 1, sNoAudio 2])
          [Op.togglePlay, Op.clickScene 2]) h.hid ≠
        run (initState [sNoAudio 0, sNoAudio 1, sNoAudio 2]) [Op.togglePlay, Op.clickScene 2] := by
  refine ⟨by decide,
    { hid := 0, kind := HKind.fallbackTimer fallbackDelayMs, capturedIndex := 0,
      capturedIsPlaying := true, isExportRun := false }, ?_, ?_, ?_⟩
  · decide
  · decide
  · decide

/-- C2 (amended): a completion handler consults only the values its render
closure captured, never the live index.  A timer, or an ended callback
whose captured activity flags pass, advances the sequencer to
capturedIndex + 1 — computed from the captured index, regardless of the
index active at firing time — while an ended callback armed when neither
playing nor exporting leaves the index unchanged. -/
theorem async_completion_uses_captured_state (s : PState) (h : Handler)
    (hfind : s.handlers.find? (fun x => x.hid == h.hid) = some h) :
    (((∃ d, h.kind = HKind.fallbackTimer d) ∨ h.capturedIsPlaying = true ∨
        h.isExportRun = true) →
      h.capturedIndex < s.scenes.length - 1 →
      (fireHandler s h.hid).currentSceneIndex = h.capturedIndex + 1) ∧
    (h.capturedIsPlaying = false → h.isExportRun = false →
      (∃ sid, h.kind = HKind.onEnded sid) →
      (fireHandler s h.hid).currentSceneIndex = s.currentSceneIndex) := by
  constructor
  · intro hg hlt
    unfold fireHandler
    simp only [hfind]
    rcases hk : h.kind with sid | d <;> simp only [hk]
    · have hflag : h.capturedIsPlaying = true ∨ h.isExportRun = true := by
        rcases hg with ⟨d, hd⟩ | hg | hg
        · rw [hk] at hd; cases hd
        · exact Or.inl hg
        · exact Or.inr hg
      rw [if_pos hflag]
      exact handleNext_advance_idx _ _ _ hlt
    · exact handleNext_advance_idx _ _ _ hlt
  · intro hp hex hsid
    obtain ⟨sid, hk⟩ := hsid
    unfold fireHandler
    simp only [hfind, hk]
    rw [if_neg]
    · rfl
    · rintro (hc | hc)
      · rw [hp] at hc; cases hc
      · rw [hex] at hc; cases hc

/-- C2 (amended) witness: firing the stale scene-0 timer in the state of
the counterexample run moves the sequencer to index 1, not 3 and not a
discard. -/
theorem async_completion_uses_captured_state_witness :
    ((run (initState [sNoAudio 0, sNoAudio 1, sNoAudio 2])
        [Op.togglePlay, Op.clickScene 2]).handlers.find? (fun x => x.hid == 0) =
      some { hid := 0, kind := HKind.fallbackTimer fallbackDelayMs, capturedIndex := 0,
             capturedIsPlaying := true, isExportRun := false }) ∧
    (fireHandler (run (initState [sNoAudio 0, sNoAudio 1, sNoAudio 2])
        [Op.togglePlay, Op.clickScene 2]) 0).currentSceneIndex = 0 + 1 :=
  ⟨by decide,
   (async_completion_uses_captured_state
      (run (initState [sNoAudio 0, sNoAudio 1, sNoAudio 2]) [Op.togglePlay, Op.clickScene 2])
      { hid := 0, kind := HKind.fallbackTimer fallbackDelayMs, capturedIndex := 0,
        capturedIsPlaying := true, isExportRun := false }
      (by decide)).1 (Or.inl ⟨fallbackDelayMs, rfl⟩) (by decide)⟩

/-! ## C3: preload cache provenance -/

/-- C3 counterexample: playing scene 0 preloads scene 1; a non-sequential
seek to scene 2 then consumes that cached buffer, so scene 2 is started on
a buffer decoded from scene 1's narration payload. -/
theorem preload_cache_mismatch :
    ∃ sid b i c, AEv.start sid b i c ∈
      (run (initState [sAudio 0, sAudio 1, sAudio 2])
        [Op.togglePlay, Op.clickScene 2]).trace ∧ b ≠ i :=
  ⟨1, 1, 2, true, by decide, by decide⟩

/-- C3 (amended): the cache is a single unkeyed slot with no index check
on consumption.  What does hold: a buffer that was not taken from the
cache was always decoded from the played scene's own payload, and a
preload call either leaves the slot unchanged or fills it for exactly its
target index + 1. -/
theorem buffer_provenance (scenes : List Scene) (ops : List Op) :
    (∀ e ∈ (run (initState scenes) ops).trace, GoodEv e) ∧
    (∀ (s : PState) (i : Nat),
      (preloadNextAudio s i).nextAudioBuffer = s.nextAudioBuffer ∨
      (preloadNextAudio s i).nextAudioBuffer = some (i + 1)) :=
  ⟨(stateOK_run (stateOK_init scenes) ops).2.2, fun s i => preload_cacheTarget s i⟩

/-- C3 (amended) witness: the fresh-decode start event of the
counterexample run is provenance-faithful. -/
theorem buffer_provenance_witness :
    (AEv.start 0 0 0 false ∈
      (run (initState [sAudio 0, sAudio 1, sAudio 2])
        [Op.togglePlay, Op.clickScene 2]).trace) ∧
    GoodEv (AEv.start 0 0 0 false) :=
  ⟨by decide,
   (buffer_provenance [sAudio 0, sAudio 1, sAudio 2] [Op.togglePlay, Op.clickScene 2]).1
     (AEv.start 0 0 0 false) (by decide)⟩

/-! ## C5: fallback timers -/

/-- C5 counterexample: a decode failure arms a 2000 ms retry timer, not
the 3000 ms no-narration fallback the claim calls the same advance. -/
theorem decode_failure_timer_differs :
    ((run (initState [sBadAudio 0]) [Op.togglePlay]).handlers.map Handler.kind =
      [HKind.fallbackTimer errorRetryDelayMs]) ∧
    errorRetryDelayMs ≠ fallbackDelayMs := by
  constructor
  · decide
  · decide

/-- C5 (amended): while playing or exporting, a scene with no narration
payload is an audio no-op (no trace events, source untouched) that arms
exactly one auto-advance timer of exactly 3000 ms; a narration decode
failure recovers through the same timer-advance mechanism but with a
2000 ms delay. -/
theorem fallback_timer_spec (s : PState) (scene : Scene) (ex : Bool)
    (hs : s.scenes[s.currentSceneIndex]? = some scene)
    (hactive : s.isPlaying = true ∨ ex = true) :
    (scene.audioData = none →
      playSceneAudio s ex = armTimer s fallbackDelayMs ex ∧
      (armTimer s fallbackDelayMs ex).trace = s.trace ∧
      (armTimer s fallbackDelayMs ex).voiceSource = s.voiceSource ∧
      (armTimer s fallbackDelayMs ex).handlers = s.handlers ++
        [{ hid := s.nextHid
           kind := HKind.fallbackTimer fallbackDelayMs
           capturedIndex := s.currentSceneIndex
           capturedIsPlaying := s.isPlaying
           isExportRun := ex }] ∧
      fallbackDelayMs = 3000) ∧
    (∀ bytes, scene.audioData = some bytes → decodeOk bytes = false →
      s.nextAudioBuffer = none →
      playSceneAudio s ex = armTimer (stopPrev s) errorRetryDelayMs ex ∧
      errorRetryDelayMs = 2000) := by
  constructor
  · intro hnone
    unfold playSceneAudio
    simp only [hs, hnone]
    rw [if_pos hactive]
    exact ⟨rfl, rfl, rfl, rfl, rfl⟩
  · intro bytes hb hdec hcache
    unfold playSceneAudio
    simp only [hs, hb]
    have hcache2 : (stopPrev s).nextAudioBuffer = none := by rw [stopPrev_cache]; exact hcache
    simp only [hcache2, hdec]
    rw [if_neg (by simp), if_pos hactive]
    exact ⟨rfl, rfl⟩

/-- C5 (amended) witness: a narration-less scene in export mode. -/
theorem fallback_timer_spec_witness :
    ((initState [sNoAudio 0]).scenes[(initState [sNoAudio 0]).currentSceneIndex]? =
      some (sNoAudio 0)) ∧
    ((sNoAudio 0).audioData = none) ∧
    (playSceneAudio (initState [sNoAudio 0]) true =
      armTimer (initState [sNoAudio 0]) fallbackDelayMs true ∧
     (armTimer (initState [sNoAudio 0]) fallbackDelayMs true).trace =
       (initState [sNoAudio 0]).trace ∧
     (armTimer (initState [sNoAudio 0]) fallbackDelayMs true).voiceSource =
       (initState [sNoAudio 0]).voiceSource ∧
     (armTimer (initState [sNoAudio 0]) fallbackDelayMs true).handlers =
       (initState [sNoAudio 0]).handlers ++
        [{ hid := (initState [sNoAudio 0]).nextHid
           kind := HKind.fallbackTimer fallbackDelayMs
           capturedIndex := (initState [sNoAudio 0]).currentSceneIndex
           capturedIsPlaying := (initState [sNoAudio 0]).isPlaying
           isExportRun := true }] ∧
     fallbackDelayMs = 3000) :=
  ⟨by decide, rfl,
   (fallback_timer_spec (initState [sNoAudio 0]) (sNoAudio 0) true (by decide)
     (Or.inr rfl)).1 rfl⟩

/-! ## C6: exclusive capture session -/

/-- C6: invoking the export sequence while a recorder session is already
recording allocates no new recorder and leaves the in-progress session
unaltered; and any invocation that does allocate was made from the idle
state (no recorder) with the sequencer index at 0. -/
theorem capture_begin_exclusive :
    (∀ (s : PState) (r : Recorder), s.recorder = some r → r.state = RecState.recording →
      (startExportSequence s).recorder = some r ∧
      (startExportSequence s).nextRid = s.nextRid) ∧
    (∀ s : PState, (startExportSequence s).nextRid ≠ s.nextRid →
      s.recorder = none ∧ s.currentSceneIndex = 0) := by
  constructor
  · intro s r hr hrec
    have halloc : allocRecorder s = s := by
      unfold allocRecorder
      rw [if_neg]
      rintro ⟨-, h2⟩
      rw [hr] at h2
      cases h2
    unfold startExportSequence
    rw [halloc]
    exact ⟨by rw [exportPlayPhase_recorder]; exact hr, exportPlayPhase_nextRid s⟩
  · intro s hne
    by_cases hc : s.currentSceneIndex = 0 ∧ s.recorder = none
    · exact ⟨hc.2, hc.1⟩
    · exfalso
      apply hne
      unfold startExportSequence
      rw [show allocRecorder s = s from by unfold allocRecorder; rw [if_neg hc]]
      exact exportPlayPhase_nextRid s

/-- C6 witness: a concrete recording session survives a second begin. -/
theorem capture_begin_exclusive_witness :
    (({ initState [sAudio 0] with
        recorder := some { rid := 0, state := RecState.recording } } : PState).recorder =
      some { rid := 0, state := RecState.recording }) ∧
    (startExportSequence { initState [sAudio 0] with
        recorder := some { rid := 0, state := RecState.recording } }).recorder =
      some { rid := 0, state := RecState.recording } ∧
    (startExportSequence { initState [sAudio 0] with
        recorder := some { rid := 0, state := RecState.recording } }).nextRid =
      ({ initState [sAudio 0] with
         recorder := some { rid := 0, state := RecState.recording } } : PState).nextRid :=
  ⟨rfl,
   (capture_begin_exclusive.1
     { initState [sAudio 0] with recorder := some { rid := 0, state := RecState.recording } }
     { rid := 0, state := RecState.recording } rfl rfl)⟩

/-! ## C7: pending image during capture -/

/-- C7 counterexample: with the image payload still pending, the offline
renderer draws no frame at all — in particular no neutral placeholder
frame. -/
theorem pending_image_draws_nothing :
    (sNoAudio 0).imageUrl = none ∧
    startCanvasAnimation true (sNoAudio 0) 0 3 [0, 1, 2] = [] := by
  constructor
  · rfl
  · rfl

/-- C7 (amended): a pending image makes the offline renderer skip the
scene entirely (it returns at once, drawing no frames, rather than
blocking), and the capture run still cannot stall on the missing asset:
in export mode `playSceneAudio` always arms exactly one advancement
completion — a fallback timer or the started source's ended callback —
whatever the image state. -/
theorem pending_image_skip_no_stall :
    (∀ (ra : Bool) (scene : Scene) (st d : ℚ) (ticks : List ℚ), scene.imageUrl = none →
      startCanvasAnimation ra scene st d ticks = []) ∧
    (∀ (s : PState) (scene : Scene), s.scenes[s.currentSceneIndex]? = some scene →
      (playSceneAudio s true).handlers.length = s.handlers.length + 1) := by
  constructor
  · intro ra scene st d ticks hurl
    unfold startCanvasAnimation
    rw [if_pos hurl]
  · intro s scene hs
    unfold playSceneAudio
    simp only [hs]
    split
    · simp
    · split
      · simp
      · split
        · simp
        · simp

/-- C7 (amended) witness. -/
theorem pending_image_skip_no_stall_witness :
    ((sNoAudio 0).imageUrl = none) ∧
    (startCanvasAnimation false (sNoAudio 0) 0 3 [] = []) ∧
    ((initState [sAudio 0]).scenes[(initState [sAudio 0]).currentSceneIndex]? =
      some (sAudio 0)) ∧
    (playSceneAudio (initState [sAudio 0]) true).handlers.length =
      (initState [sAudio 0]).handlers.length + 1 :=
  ⟨rfl, pending_image_skip_no_stall.1 false (sNoAudio 0) 0 3 [] rfl, by decide,
   pending_image_skip_no_stall.2 (initState [sAudio 0]) (sAudio 0) (by decide)⟩

/-! ## C8: idempotent audio graph setup -/

theorem ensureAudioGraph_idem (s : AudioGraphState) :
    ensureAudioGraph (ensureAudioGraph s) = ensureAudioGraph s := by
  rcases hc : s.ctx with _ | cs
  · simp [ensureAudioGraph, hc]
  · rcases hb : s.bgMusicSource with _ | b
    · cases cs <;> simp [ensureAudioGraph, hc, hb]
    · cases cs <;> simp [ensureAudioGraph, hc, hb]

theorem iterate_idem {α : Type} (f : α → α) (hf : ∀ x, f (f x) = f x) (x : α) :
    ∀ n, 1 ≤ n → f^[n] x = f x := by
  intro n hn
  induction n with
  | zero => cases hn
  | succ m ih =>
    rcases Nat.eq_zero_or_pos m with h0 | hpos
    · subst h0
      simp
    · rw [Function.iterate_succ_apply', ih hpos, hf]

/-- C8: once the mount effect has created the shared context, N calls to
`ensureAudioGraph` (N at least 1) produce exactly one created context and
exactly one created drone bed path; the state after N calls equals the
state after the first, and a further call leaves the graph unchanged (the
context is already running, so the call only re-observes it). -/
theorem ensureAudioGraph_idempotent (n : Nat) (hn : 1 ≤ n) :
    (ensureAudioGraph^[n] (mountEffect freshGraph)).ctxCreatedCount = 1 ∧
    (ensureAudioGraph^[n] (mountEffect freshGraph)).droneCreatedCount = 1 ∧
    ensureAudioGraph^[n] (mountEffect freshGraph) =
      ensureAudioGraph (mountEffect freshGraph) ∧
    ensureAudioGraph (ensureAudioGraph^[n] (mountEffect freshGraph)) =
      ensureAudioGraph^[n] (mountEffect freshGraph) := by
  have h1 := iterate_idem ensureAudioGraph ensureAudioGraph_idem (mountEffect freshGraph) n hn
  refine ⟨?_, ?_, h1, ?_⟩
  · rw [h1]
    rfl
  · rw [h1]
    rfl
  · rw [h1]
    exact ensureAudioGraph_idem _

/-- C8 witness at N equal to 3. -/
theorem ensureAudioGraph_idempotent_witness :
    (1 ≤ 3) ∧
    ((ensureAudioGraph^[3] (mountEffect freshGraph)).ctxCreatedCount = 1 ∧
     (ensureAudioGraph^[3] (mountEffect freshGraph)).droneCreatedCount = 1 ∧
     ensureAudioGraph^[3] (mountEffect freshGraph) =
       ensureAudioGraph (mountEffect freshGraph) ∧
     ensureAudioGraph (ensureAudioGraph^[3] (mountEffect freshGraph)) =
       ensureAudioGraph^[3] (mountEffect freshGraph)) :=
  ⟨by decide, ensureAudioGraph_idempotent 3 (by decide)⟩

/-! ## C9: scheduled, smoothed ducking envelope -/

theorem duckEvent_smoothed (target time tc : ℚ) (htc : 0 < tc) :
    GainEvent.isSmoothedTransition (GainEvent.setTargetAtTime target time tc) ∧
    ¬ GainEvent.isImmediateStep (GainEvent.setTargetAtTime target time tc) := by
  constructor
  · exact htc
  · simp [GainEvent.isImmediateStep]

/-- C9: the ducking envelope is scheduled and smoothed.  Every automation
event the narration start or end places on the background-bed gain is a
set-target transition with a positive time constant and never an immediate
step change; at narration start (payload present and decodable, bed gain
in place) the scheduled event is exactly the duck down to the quiet floor
0.02 with time constant 0.1, and at narration end exactly the release back
to the resting level 0.05 with time constant 0.5; the floor lies strictly
below the resting level. -/
theorem ducking_envelope_smoothed (s : DuckPlayer) (scene : Scene) :
    (∃ es, (duckPlaySceneAudio s scene).bedEvents = s.bedEvents ++ es ∧
      (∀ e ∈ es, GainEvent.isSmoothedTransition e ∧ ¬ GainEvent.isImmediateStep e) ∧
      ∀ bytes gid, scene.audioData = some bytes → decodeOk bytes = true →
        (ensureAudioGraph s.graph).ctx ≠ none →
        (ensureAudioGraph s.graph).bgMusicGain = some gid →
        es = [GainEvent.setTargetAtTime duckFloorGain s.now duckAttackTimeConstant]) ∧
    (∃ es, (duckSourceEnded s).bedEvents = s.bedEvents ++ es ∧
      (∀ e ∈ es, GainEvent.isSmoothedTransition e ∧ ¬ GainEvent.isImmediateStep e) ∧
      ∀ gid, s.graph.bgMusicGain = some gid →
        es = [GainEvent.setTargetAtTime droneRestGain s.now duckReleaseTimeConstant]) ∧
    duckFloorGain < droneRestGain ∧
    0 < duckAttackTimeConstant ∧ 0 < duckReleaseTimeConstant := by
  refine ⟨?_, ?_, by norm_num [duckFloorGain, droneRestGain],
    by norm_num [duckAttackTimeConstant], by norm_num [duckReleaseTimeConstant]⟩
  · unfold duckPlaySceneAudio
    split
    · rename_i hctx
      refine ⟨[], by simp, by simp, ?_⟩
      intro bytes gid hb hdec hctx2 hgid
      exact absurd hctx hctx2
    · split
      · rename_i hnone
        refine ⟨[], by simp, by simp, ?_⟩
        intro bytes gid hb hdec hctx2 hgid
        rw [hnone] at hb
        cases hb
      · rename_i bytes hb0
        split
        · refine ⟨_, rfl, ?_, ?_⟩
          · intro e he
            rcases hgg : (ensureAudioGraph s.graph).bgMusicGain with _ | gid
            · rw [hgg] at he
              cases he
            · rw [hgg] at he
              simp only [List.mem_singleton] at he
              subst he
              exact duckEvent_smoothed _ _ _ (by norm_num [duckAttackTimeConstant])
          · intro bytes2 gid hb hdec2 hctx2 hgid
            rw [hgid]
        · rename_i hdec
          refine ⟨[], by simp, by simp, ?_⟩
          intro bytes2 gid hb hdec2 hctx2 hgid
          rw [hb0] at hb
          injection hb with hbe
          subst hbe
          exact absurd hdec2 hdec
  · unfold duckSourceEnded
    split
    · rename_i gid0 hgid0
      refine ⟨[GainEvent.setTargetAtTime droneRestGain s.now duckReleaseTimeConstant],
        rfl, ?_, fun _ _ => rfl⟩
      intro e he
      simp only [List.mem_singleton] at he
      subst he
      exact duckEvent_smoothed _ _ _ (by norm_num [duckReleaseTimeConstant])
    · rename_i hgid0
      refine ⟨[], by simp, by simp, ?_⟩
      intro gid hg2
      rw [hg2] at hgid0
      cases hgid0

/-- C9 witness: a graph with the bed in place and a decodable scene. -/
theorem ducking_envelope_smoothed_witness :
    (∃ es, (duckPlaySceneAudio duckDemo (sAudio 0)).bedEvents = duckDemo.bedEvents ++ es ∧
      (∀ e ∈ es, GainEvent.isSmoothedTransition e ∧ ¬ GainEvent.isImmediateStep e) ∧
      ∀ bytes gid, (sAudio 0).audioData = some bytes → decodeOk bytes = true →
        (ensureAudioGraph duckDemo.graph).ctx ≠ none →
        (ensureAudioGraph duckDemo.graph).bgMusicGain = some gid →
        es = [GainEvent.setTargetAtTime duckFloorGain duckDemo.now
          duckAttackTimeConstant]) ∧
    (∃ es, (duckSourceEnded duckDemo).bedEvents = duckDemo.bedEvents ++ es ∧
      (∀ e ∈ es, GainEvent.isSmoothedTransition e ∧ ¬ GainEvent.isImmediateStep e) ∧
      ∀ gid, duckDemo.graph.bgMusicGain = some gid →
        es = [GainEvent.setTargetAtTime droneRestGain duckDemo.now
          duckReleaseTimeConstant]) ∧
    duckFloorGain < droneRestGain ∧
    0 < duckAttackTimeConstant ∧ 0 < duckReleaseTimeConstant :=
  ducking_envelope_smoothed duckDemo (sAudio 0)

end Lumina
